import Mathlib

/-!
Verification development for the mezon-checkin bot.

Each section shallowly embeds one part of the Go source
(`internal/webrtc`, `internal/client`, `internal/utils`) as Lean
definitions and proves the specification claims about it.  Lock-protected
critical sections of the Go code are modelled as atomic steps; goroutine
interleavings are modelled as arbitrary sequences of those steps.
-/

namespace MezonCheckin

/-! ## Session cleanup (internal/webrtc/types.go)

`cleanupConnection` looks up and deletes the per-user entry of
`w.connections` while holding `w.mu`; only the caller that found the
entry runs the `cleanupOnce.Do` body (cancel, close audio-stop channel,
close peer connection, send the quit envelope).  `endCallAfterDelay`
re-checks the registry after its delay and funnels through
`endCallOnce.Do` into `cleanupConnection`.  The state below tracks the
registry entry, both one-shot latches, and how often each effect ran. -/

structure CleanupState where
  present      : Bool
  cleanupFired : Bool
  endFired     : Bool
  quitSent     : Nat
  pcClosed     : Nat
  audioClosed  : Nat
  deriving DecidableEq, Repr

def CleanupState.init : CleanupState :=
  { present := true, cleanupFired := false, endFired := false,
    quitSent := 0, pcClosed := 0, audioClosed := 0 }

/-- Embedding of `WebRTCManager.cleanupConnection` (types.go:170).
Under `w.mu` the entry is looked up and deleted; an absent entry means an
early return.  The deleting caller alone reaches `cleanupOnce.Do`, whose
body cancels the context, closes the audio stop channel, closes the peer
connection and sends the WebRTC quit envelope. -/
def cleanupConnection (s : CleanupState) : CleanupState :=
  if !s.present then s
  else
    let s1 := { s with present := false }
    if s1.cleanupFired then s1
    else { s1 with
            cleanupFired := true,
            audioClosed := s1.audioClosed + 1,
            pcClosed := s1.pcClosed + 1,
            quitSent := s1.quitSent + 1 }

/-- Embedding of `WebRTCManager.endCallAfterDelay` (types.go:220): after
the delay, look the entry up under `w.mu.RLock`; if it is gone, return;
otherwise run `cleanupConnection` through the `endCallOnce` latch. -/
def endCallAfterDelay (s : CleanupState) : CleanupState :=
  if !s.present then s
  else if s.endFired then s
  else cleanupConnection { s with endFired := true }

/-- A cleanup trigger: `direct` is a call of `cleanupConnection` itself
(remote QUIT envelope in `HandleSignal`, the peer-connection
closed/failed callback); `delayed` is `endCallAfterDelay` (scheduled call
end, capture completion). -/
inductive CleanupTrigger
  | direct
  | delayed
  deriving DecidableEq, Repr

def runTriggers (s : CleanupState) (ts : List CleanupTrigger) : CleanupState :=
  ts.foldl
    (fun s t =>
      match t with
      | .direct => cleanupConnection s
      | .delayed => endCallAfterDelay s)
    s

theorem cleanupConnection_absent {s : CleanupState} (h : s.present = false) :
    cleanupConnection s = s := by
  simp [cleanupConnection, h]

theorem endCallAfterDelay_absent {s : CleanupState} (h : s.present = false) :
    endCallAfterDelay s = s := by
  simp [endCallAfterDelay, h]

theorem runTriggers_absent {s : CleanupState} (h : s.present = false)
    (ts : List CleanupTrigger) : runTriggers s ts = s := by
  induction ts with
  | nil => rfl
  | cons t ts ih =>
    cases t <;>
      simp [runTriggers, List.foldl_cons, cleanupConnection_absent h,
        endCallAfterDelay_absent h] <;>
      simpa [runTriggers, cleanupConnection_absent h, endCallAfterDelay_absent h] using ih

/-- Result of the first trigger from the initial state. -/
theorem first_trigger_cleans (t : CleanupTrigger) :
    (runTriggers CleanupState.init [t]).present = false ∧
    (runTriggers CleanupState.init [t]).quitSent = 1 ∧
    (runTriggers CleanupState.init [t]).pcClosed = 1 ∧
    (runTriggers CleanupState.init [t]).audioClosed = 1 := by
  cases t <;> decide

/-- C1: for every nonempty sequence of cleanup triggers for a registered
session (remote QUIT, peer-connection closed/failed, scheduled call end,
capture completion), the cleanup body runs exactly once: one quit
envelope, one peer-connection close, one audio-stop close; and already
after the first trigger the registry entry is gone. -/
theorem c1_cleanup_at_most_once (ts : List CleanupTrigger) (hne : ts ≠ []) :
    (runTriggers CleanupState.init ts).quitSent = 1 ∧
    (runTriggers CleanupState.init ts).pcClosed = 1 ∧
    (runTriggers CleanupState.init ts).audioClosed = 1 ∧
    (runTriggers CleanupState.init ts).present = false ∧
    ∀ t rest, ts = t :: rest →
      (runTriggers CleanupState.init [t]).present = false := by
  cases ts with
  | nil => exact absurd rfl hne
  | cons t rest =>
    have hstep : runTriggers CleanupState.init [t] =
        (match t with
          | .direct => cleanupConnection CleanupState.init
          | .delayed => endCallAfterDelay CleanupState.init) := by
      cases t <;> rfl
    have hfirst := first_trigger_cleans t
    have hrun : runTriggers CleanupState.init (t :: rest) =
        runTriggers (runTriggers CleanupState.init [t]) rest := by
      cases t <;> rfl
    have hfix := runTriggers_absent hfirst.1 rest
    refine ⟨?_, ?_, ?_, ?_, ?_⟩
    · rw [hrun, hfix]; exact hfirst.2.1
    · rw [hrun, hfix]; exact hfirst.2.2.1
    · rw [hrun, hfix]; exact hfirst.2.2.2
    · rw [hrun, hfix]; exact hfirst.1
    · intro t' rest' heq
      have : t' = t := by injection heq with h1 _; exact h1.symm
      subst this
      exact (first_trigger_cleans t').1

/-- Witness for C1 at a concrete trigger sequence. -/
theorem c1_cleanup_at_most_once_witness :
    ([CleanupTrigger.direct, .delayed, .direct] ≠ ([] : List CleanupTrigger)) ∧
    (runTriggers CleanupState.init [.direct, .delayed, .direct]).quitSent = 1 := by
  refine ⟨by decide, ?_⟩
  exact (c1_cleanup_at_most_once [.direct, .delayed, .direct] (by decide)).1

/-! ## Pending ICE candidates (signal handler, webrtc package)

Per-session fields `pendingICE`/`iceReady` of `connectionState` are
protected by the session mutex.  `handleICECandidate` queues a candidate
while `iceReady` is false and calls `pc.AddICECandidate` directly once it
is true; the tail of `handleOffer` flips `iceReady`, snapshots and clears
the queue, and adds the snapshot in order.  `applied` below records the
`AddICECandidate` calls issued to the peer connection, in call order
(failed calls are only logged in the source, so they still count as
calls). -/

structure IceState where
  iceReady   : Bool
  pendingICE : List String
  applied    : List String
  deriving DecidableEq, Repr

def IceState.init : IceState :=
  { iceReady := false, pendingICE := [], applied := [] }

/-- Embedding of `handleICECandidate` (signal handler): under `state.mu`,
append to `pendingICE` when `iceReady` is false, otherwise
`AddICECandidate` immediately. -/
def handleICECandidate (s : IceState) (c : String) : IceState :=
  if !s.iceReady then { s with pendingICE := s.pendingICE ++ [c] }
  else { s with applied := s.applied ++ [c] }

/-- Embedding of the tail of `handleOffer`: set `iceReady := true`,
snapshot `pendingICE` and clear it under the lock, then call
`AddICECandidate` for each snapshot element in order. -/
def finishOffer (s : IceState) : IceState :=
  { iceReady := true, pendingICE := [], applied := s.applied ++ s.pendingICE }

theorem handleICE_queue_phase (cs : List String) (s : IceState)
    (h : s.iceReady = false) :
    cs.foldl handleICECandidate s =
      { s with pendingICE := s.pendingICE ++ cs } := by
  induction cs generalizing s with
  | nil => simp
  | cons c cs ih =>
    rw [List.foldl_cons]
    have hc : handleICECandidate s c = { s with pendingICE := s.pendingICE ++ [c] } := by
      simp [handleICECandidate, h]
    rw [hc, ih _ (by simp_all)]
    simp

theorem handleICE_ready_phase (ds : List String) (s : IceState)
    (h : s.iceReady = true) :
    ds.foldl handleICECandidate s = { s with applied := s.applied ++ ds } := by
  induction ds generalizing s with
  | nil => simp
  | cons d ds ih =>
    rw [List.foldl_cons]
    have hd : handleICECandidate s d = { s with applied := s.applied ++ [d] } := by
      simp [handleICECandidate, h]
    rw [hd, ih _ (by simp_all)]
    simp

/-- C2: candidates received before the ready flip are queued in receipt
order; the flip applies exactly those candidates to the peer connection
in the identical order, leaving the queue empty; candidates received
after the flip are applied immediately, after the queued ones. -/
theorem c2_ice_ordering (cs ds : List String) :
    (cs.foldl handleICECandidate IceState.init).pendingICE = cs ∧
    (cs.foldl handleICECandidate IceState.init).applied = [] ∧
    (finishOffer (cs.foldl handleICECandidate IceState.init)).applied = cs ∧
    (finishOffer (cs.foldl handleICECandidate IceState.init)).pendingICE = [] ∧
    (ds.foldl handleICECandidate
      (finishOffer (cs.foldl handleICECandidate IceState.init))).applied = cs ++ ds := by
  have h1 := handleICE_queue_phase cs IceState.init rfl
  have hready : (finishOffer (cs.foldl handleICECandidate IceState.init)).iceReady = true := rfl
  have h2 := handleICE_ready_phase ds _ hready
  refine ⟨?_, ?_, ?_, ?_, ?_⟩
  · rw [h1]; rfl
  · rw [h1]; rfl
  · rw [h1]; simp [finishOffer, IceState.init]
  · rfl
  · rw [h2, h1]; simp [finishOffer, IceState.init]

/-! ## Location-confirmation lifecycle (internal/webrtc/location.go)

`pendingConfirmations` maps a user id to a `confirmationState` whose
`confirmed` flag sits behind the per-state mutex; the whole
lookup/flag/delete section of both `HandleLocationReply` and
`handleConfirmationTimeout` runs under `w.confirmationMu`, so the two are
serialized.  The model tracks the entry (with its `confirmed` flag) and
counts the externally visible effects. -/

structure ConfirmState where
  pending     : Option Bool
  successDM   : Nat
  failDM      : Nat
  statusPosts : Nat
  deriving DecidableEq, Repr

def ConfirmState.armed : ConfirmState :=
  { pending := some false, successDM := 0, failDM := 0, statusPosts := 0 }

/-- Embedding of `HandleLocationReply` (location.go:322) for a user.
`valid` is the result of `validateLocation` on the reply coordinates and
`apiOk` whether the status-update POST returned 2xx.  With no pending
confirmation the function returns an error without side effects;
otherwise it marks the state confirmed, stops the timer, deletes the
entry, and then either sends the failure DM (invalid location), or POSTs
the APPROVED status and sends the failure or success DM depending on the
HTTP status. -/
def handleLocationReply (valid apiOk : Bool) (s : ConfirmState) : ConfirmState :=
  match s.pending with
  | none => s
  | some _ =>
    let s1 := { s with pending := none }
    if !valid then { s1 with failDM := s1.failDM + 1 }
    else
      let s2 := { s1 with statusPosts := s1.statusPosts + 1 }
      if !apiOk then { s2 with failDM := s2.failDM + 1 }
      else { s2 with successDM := s2.successDM + 1 }

/-- Embedding of `handleConfirmationTimeout` (location.go:429): with no
entry it returns immediately; with an already-confirmed entry it only
deletes it; otherwise it deletes the entry and sends the timeout failure
DM (audio and call-end effects are covered by the C6 model). -/
def handleConfirmationTimeout (s : ConfirmState) : ConfirmState :=
  match s.pending with
  | none => s
  | some confirmed =>
    if confirmed then { s with pending := none }
    else { s with pending := none, failDM := s.failDM + 1 }

/-- C4: from an armed 60-second confirmation, if the reply is processed
first the later timer callback is a no-op, and if the timer fired first a
late reply is a no-op; in both interleavings at most one success DM and
at most one status-update POST happen. -/
theorem c4_confirmation_idempotent (valid apiOk : Bool) :
    handleConfirmationTimeout (handleLocationReply valid apiOk ConfirmState.armed) =
      handleLocationReply valid apiOk ConfirmState.armed ∧
    handleLocationReply valid apiOk (handleConfirmationTimeout ConfirmState.armed) =
      handleConfirmationTimeout ConfirmState.armed ∧
    (handleConfirmationTimeout (handleLocationReply valid apiOk ConfirmState.armed)).successDM ≤ 1 ∧
    (handleConfirmationTimeout (handleLocationReply valid apiOk ConfirmState.armed)).statusPosts ≤ 1 ∧
    (handleLocationReply valid apiOk (handleConfirmationTimeout ConfirmState.armed)).successDM = 0 ∧
    (handleLocationReply valid apiOk (handleConfirmationTimeout ConfirmState.armed)).statusPosts = 0 := by
  cases valid <;> cases apiOk <;> decide

/-! ## Reconnection backoff (internal/client/reconnection.go)

Constants from the client package; durations are kept in seconds. -/

def InitialRetryDelay : Nat := 5
def MaxRetryDelay : Nat := 60
def MaxRetries : Nat := 10

/-- Embedding of `calculateNextRetryInterval` (reconnection.go:80). -/
def calculateNextRetryInterval (current maxI : Nat) : Nat :=
  let next := current * 2
  if next > maxI then maxI else next

inductive ReconnectOutcome
  | closedEarly
  | reconnected
  | maxAttemptsError
  deriving DecidableEq, Repr

structure ReconnectResult where
  waits   : List Nat
  outcome : ReconnectOutcome
  deriving DecidableEq, Repr

/-- Loop body of `reconnectWithBackoff` (reconnection.go:33).  `closed n`
models the `c.IsClosed()` guard and the `ctx.Done` select arm seen just
before attempt `n` (both return nil early); `attemptOk n` is the result
of `c.attemptReconnect()` on attempt `n`.  `fuel` equals
`MaxRetries - attempts`, so the `attempts < MaxRetries` loop condition
becomes `fuel > 0`; `waits` collects the sleep taken before each
attempt.  On a successful attempt the loop emits the `reconnected` event
and returns; when the attempts are exhausted it returns the
max-reconnection-attempts error. -/
def reconnectLoop (closed attemptOk : Nat → Bool) :
    Nat → Nat → Nat → ReconnectResult
  | 0, _, _ => { waits := [], outcome := .maxAttemptsError }
  | fuel + 1, attempts, interval =>
    if closed (attempts + 1) then { waits := [], outcome := .closedEarly }
    else if attemptOk (attempts + 1) then
      { waits := [interval], outcome := .reconnected }
    else
      let rest := reconnectLoop closed attemptOk fuel (attempts + 1)
        (calculateNextRetryInterval interval MaxRetryDelay)
      { rest with waits := interval :: rest.waits }

/-- Embedding of `reconnectWithBackoff`: start with the 5-second initial
delay and zero attempts. -/
def reconnectWithBackoff (closed attemptOk : Nat → Bool) : ReconnectResult :=
  reconnectLoop closed attemptOk MaxRetries 0 InitialRetryDelay

theorem reconnectLoop_success (closed attemptOk : Nat → Bool)
    (hclosed : ∀ n, closed n = false) :
    ∀ fuel attempts interval, (∃ k, attempts < k ∧ k ≤ attempts + fuel ∧ attemptOk k = true) →
      (reconnectLoop closed attemptOk fuel attempts interval).outcome = .reconnected := by
  intro fuel
  induction fuel with
  | zero =>
    intro attempts interval ⟨k, hk1, hk2, _⟩
    omega
  | succ fuel ih =>
    intro attempts interval ⟨k, hk1, hk2, hok⟩
    by_cases h : attemptOk (attempts + 1) = true
    · simp [reconnectLoop, hclosed, h]
    · have hkne : k ≠ attempts + 1 := fun he => h (he ▸ hok)
      have : (reconnectLoop closed attemptOk fuel (attempts + 1)
          (calculateNextRetryInterval interval MaxRetryDelay)).outcome = .reconnected :=
        ih (attempts + 1) _ ⟨k, by omega, by omega, hok⟩
      simpa [reconnectLoop, hclosed, h] using this

/-- C8: with the client never closed, ten consecutive failed attempts
sleep exactly 5, 10, 20, 40, 60, 60, 60, 60, 60, 60 seconds before
attempts 1..10 and end in the max-reconnection-attempts error; and any
run with a successful attempt within the first ten ends with the
`reconnected` event emitted. -/
theorem c8_reconnect_backoff (closed attemptOk : Nat → Bool)
    (hclosed : ∀ n, closed n = false) :
    ((∀ n, attemptOk n = false) →
      reconnectWithBackoff closed attemptOk =
        { waits := [5, 10, 20, 40, 60, 60, 60, 60, 60, 60],
          outcome := .maxAttemptsError }) ∧
    ((∃ k, 1 ≤ k ∧ k ≤ 10 ∧ attemptOk k = true) →
      (reconnectWithBackoff closed attemptOk).outcome = .reconnected) := by
  constructor
  · intro hfail
    simp only [reconnectWithBackoff, MaxRetries, InitialRetryDelay]
    simp [reconnectLoop, hclosed, hfail, calculateNextRetryInterval, MaxRetryDelay]
  · intro ⟨k, hk1, hk2, hok⟩
    exact reconnectLoop_success closed attemptOk hclosed MaxRetries 0 InitialRetryDelay
      ⟨k, by omega, by simpa [MaxRetries] using hk2, hok⟩

/-- Witness for C8: the all-failures run and a run that succeeds on
attempt 3, at concrete trigger functions. -/
theorem c8_reconnect_backoff_witness :
    ((fun _ => false : Nat → Bool) 0 = false) ∧
    reconnectWithBackoff (fun _ => false) (fun _ => false) =
      { waits := [5, 10, 20, 40, 60, 60, 60, 60, 60, 60],
        outcome := .maxAttemptsError } ∧
    (reconnectWithBackoff (fun _ => false) (fun n => n == 3)).outcome = .reconnected := by
  refine ⟨rfl, ?_, ?_⟩
  · exact (c8_reconnect_backoff (fun _ => false) (fun _ => false)
      (fun _ => rfl)).1 (fun _ => rfl)
  · exact (c8_reconnect_backoff (fun _ => false) (fun n => n == 3)
      (fun _ => rfl)).2 ⟨3, by decide, by decide, by decide⟩

/-! ## User-visible failure handling (capture.go, location.go, audio.go)

Traces of the externally visible steps each failure handler performs, in
program order.  `dmFail m` is a `SendCheckinFailed` call (red Vietnamese
embed with reason `m`), `playFailAudioCall` is a `playCheckinFailAudio`
call (which internally falls back to a 500 ms call end when audio is
disabled or unavailable, and otherwise schedules a 1 s call end when the
clip finishes), and `scheduleEnd d` is `go endCallAfterDelay(userID, _, d)`
with `d` in milliseconds. -/

inductive FailStep
  | dmFail (message : String)
  | playFailAudioCall
  | scheduleEnd (delayMs : Nat)
  deriving DecidableEq, Repr

/-- Embedding of the `failureMessages` map lookup in
`handleCaptureFailure` (capture.go:232); a missing key yields the empty
string, replaced by the generic message. -/
def failureMessageFor (reason : String) : String :=
  if reason = "timeout" then "Hết thời gian chờ"
  else if reason = "pli_timeout" then "Không nhận được video"
  else if reason = "max_attempts" then "Không xác định được danh tính"
  else "Lỗi không xác định"

/-- Embedding of `handleCaptureFailure` (capture.go:223), reached with
the session still registered: cancel the context, send the failure DM,
then schedule `endCallAfterDelay` after 500 ms.  The
`playCheckinFailAudio` call that follows is commented out in the
source. -/
def handleCaptureFailure (reason : String) : List FailStep :=
  [.dmFail (failureMessageFor reason), .scheduleEnd 500]

/-- Embedding of the invalid-location branch of `HandleLocationReply`
(location.go:348): send the failure DM, and if the connection still
exists play the fail audio and schedule the call end after 2 s. -/
def invalidLocationSteps (connExists : Bool) : List FailStep :=
  .dmFail "Vị trí không hợp lệ" ::
    (if connExists then [.playFailAudioCall, .scheduleEnd 2000] else [])

/-- Embedding of the tail of `handleConfirmationTimeout`
(location.go:451) past the idempotence guards: send the timeout DM, and
if the connection still exists play the fail audio and schedule the call
end after 2 s. -/
def confirmationTimeoutSteps (connExists : Bool) : List FailStep :=
  .dmFail "Hết thời gian xác nhận vị trí" ::
    (if connExists then [.playFailAudioCall, .scheduleEnd 2000] else [])

/-- Counterexample to C6 as stated: for the `pli_timeout` capture failure
(session present) no fail audio is played at all, and for an invalid
location with a live session the hang-up is scheduled after 2000 ms, not
500 ms. -/
theorem c6_counterexample :
    (handleCaptureFailure "pli_timeout").contains .playFailAudioCall = false ∧
    (invalidLocationSteps true).contains (.scheduleEnd 500) = false ∧
    (invalidLocationSteps true).contains (.scheduleEnd 2000) = true := by
  decide

/-- C6 (amended): every user-visible failure first sends the red
Vietnamese DM with the mapped reason; capture failures (timeout,
pli_timeout, max_attempts) then schedule the hang-up after 500 ms without
playing the fail audio, while invalid-location and confirmation-timeout
failures, if the session still exists, play the fail audio and schedule
the hang-up after 2 s (and only send the DM otherwise). -/
theorem c6_failure_handling_amended :
    handleCaptureFailure "timeout" =
      [.dmFail "Hết thời gian chờ", .scheduleEnd 500] ∧
    handleCaptureFailure "pli_timeout" =
      [.dmFail "Không nhận được video", .scheduleEnd 500] ∧
    handleCaptureFailure "max_attempts" =
      [.dmFail "Không xác định được danh tính", .scheduleEnd 500] ∧
    (∀ reason, (handleCaptureFailure reason).contains .playFailAudioCall = false) ∧
    (∀ reason, (handleCaptureFailure reason).head? = some (.dmFail (failureMessageFor reason))) ∧
    invalidLocationSteps true =
      [.dmFail "Vị trí không hợp lệ", .playFailAudioCall, .scheduleEnd 2000] ∧
    invalidLocationSteps false = [.dmFail "Vị trí không hợp lệ"] ∧
    confirmationTimeoutSteps true =
      [.dmFail "Hết thời gian xác nhận vị trí", .playFailAudioCall, .scheduleEnd 2000] ∧
    confirmationTimeoutSteps false = [.dmFail "Hết thời gian xác nhận vị trí"] := by
  refine ⟨by decide, by decide, by decide, ?_, ?_, by decide, by decide, by decide, by decide⟩
  · intro reason; rfl
  · intro reason; rfl

/-! ## Correlated request/response (internal/client/websocket.go, client core)

`MezonClient.nextCID` is an increasing integer; `generateCID` hands out
its decimal string (`fmt.Sprintf` is injective, so cids are modelled as
the naturals themselves, with `none` standing for the empty cid).
`cidHandlers` maps a cid to a buffered response channel of capacity one:
an entry whose slot is `none` models a registered, still-empty channel.
`resolveCID` fills the slot for `envelope.Cid` and drops the envelope
when no handler exists or the slot is already full (the 100 ms
non-blocking delivery in the source). -/

structure Envelope where
  cid     : Option Nat
  isError : Bool
  deriving DecidableEq, Repr

def regLookup (k : Nat) : List (Nat × Option Envelope) → Option (Option Envelope)
  | [] => none
  | (k', v) :: rest => if k' = k then some v else regLookup k rest

def regSet (k : Nat) (v : Option Envelope) (l : List (Nat × Option Envelope)) :
    List (Nat × Option Envelope) :=
  l.map (fun p => if p.1 = k then (k, v) else p)

def regErase (k : Nat) (l : List (Nat × Option Envelope)) :
    List (Nat × Option Envelope) :=
  l.filter (fun p => p.1 ≠ k)

structure ClientState where
  nextCID     : Nat
  cidHandlers : List (Nat × Option Envelope)
  deriving DecidableEq, Repr

/-- Embedding of `generateCID` (client core): return the current
`nextCID` and increment it, all under `cidMu`. -/
def generateCID (s : ClientState) : Nat × ClientState :=
  (s.nextCID, { s with nextCID := s.nextCID + 1 })

/-- Embedding of `resolveCID` (client core): look the handler channel up
under `cidMu`; missing handler drops the envelope with a warning; a full
channel makes the 100 ms non-blocking send time out and drop it. -/
def resolveCID (s : ClientState) (e : Envelope) : ClientState :=
  match e.cid with
  | none => s
  | some k =>
    match regLookup k s.cidHandlers with
    | none => s
    | some (some _) => s
    | some none => { s with cidHandlers := regSet k (some e) s.cidHandlers }

/-- Embedding of the reader dispatch in `processProtobufMessage`
(websocket.go:189): a non-empty cid routes to `resolveCID`; an empty cid
routes to the event dispatcher, which never touches the registry. -/
def processInbound (s : ClientState) (e : Envelope) : ClientState :=
  match e.cid with
  | some _ => resolveCID s e
  | none => s

inductive SendResult
  | noConn
  | marshalFailed
  | writeFailed
  | response (e : Envelope) (serverErr : Bool)
  | timedOut
  | cancelled
  deriving DecidableEq, Repr

/-- Embedding of `sendWithResponse` (websocket.go:293).  `connOk`,
`marshalOk` and `writeOk` are the outcomes of the connection snapshot,
`proto.Marshal` and `conn.WriteMessage`; `inbound` is the list of frames
the reader dispatches while the caller waits in the select, in arrival
order; `ctxDone` selects between the timeout arm and the
context-cancelled arm when no response has been delivered.  The deferred
cleanup erases the pending entry and is run on every path past
registration. -/
def sendWithResponse (s : ClientState) (connOk marshalOk writeOk : Bool)
    (inbound : List Envelope) (ctxDone : Bool) : SendResult × ClientState :=
  if !connOk then (.noConn, s)
  else
    let cid := (generateCID s).1
    let s1 := (generateCID s).2
    let s2 := { s1 with cidHandlers := (cid, none) :: s1.cidHandlers }
    if !marshalOk then (.marshalFailed, { s2 with cidHandlers := regErase cid s2.cidHandlers })
    else if !writeOk then (.writeFailed, { s2 with cidHandlers := regErase cid s2.cidHandlers })
    else
      let s3 := inbound.foldl processInbound s2
      let result : SendResult :=
        match regLookup cid s3.cidHandlers with
        | some (some e) => .response e e.isError
        | _ => if ctxDone then .cancelled else .timedOut
      (result, { s3 with cidHandlers := regErase cid s3.cidHandlers })

/-- Registry invariant: every registered cid was allocated earlier than
`nextCID`, and a filled slot holds an envelope stamped with its own key.
Written as a Bool so witnesses can discharge it by evaluation. -/
def RegistryInv (s : ClientState) : Bool :=
  s.cidHandlers.all (fun p =>
    p.1 < s.nextCID &&
      (match p.2 with
       | none => true
       | some e => e.cid == some p.1))


theorem regLookup_cons (k k' : Nat) (v : Option Envelope)
    (l : List (Nat × Option Envelope)) :
    regLookup k ((k', v) :: l) = if k' = k then some v else regLookup k l := rfl

theorem regSet_cons (k : Nat) (v : Option Envelope) (k' : Nat) (v' : Option Envelope)
    (l : List (Nat × Option Envelope)) :
    regSet k v ((k', v') :: l) =
      (if k' = k then (k, v) else (k', v')) :: regSet k v l := rfl

theorem regLookup_set_self (k : Nat) (v : Option Envelope) :
    ∀ l : List (Nat × Option Envelope), regLookup k l ≠ none →
      regLookup k (regSet k v l) = some v := by
  intro l
  induction l with
  | nil => intro h; simp [regLookup] at h
  | cons p rest ih =>
    intro h
    obtain ⟨k', v'⟩ := p
    rw [regSet_cons]
    by_cases hk : k' = k
    · rw [if_pos hk, regLookup_cons, if_pos rfl]
    · rw [if_neg hk, regLookup_cons, if_neg hk]
      rw [regLookup_cons, if_neg hk] at h
      exact ih h

theorem regLookup_set_other (cid k : Nat) (v : Option Envelope) (hk : k ≠ cid) :
    ∀ l : List (Nat × Option Envelope),
      regLookup cid (regSet k v l) = regLookup cid l := by
  intro l
  induction l with
  | nil => rfl
  | cons p rest ih =>
    obtain ⟨k', v'⟩ := p
    rw [regSet_cons]
    by_cases hk' : k' = k
    · subst hk'
      rw [if_pos rfl, regLookup_cons, regLookup_cons, if_neg hk, if_neg hk]
      exact ih
    · rw [if_neg hk', regLookup_cons, regLookup_cons]
      by_cases h2 : k' = cid
      · rw [if_pos h2, if_pos h2]
      · rw [if_neg h2, if_neg h2]
        exact ih

theorem regLookup_erase (k : Nat) (l : List (Nat × Option Envelope)) :
    regLookup k (regErase k l) = none := by
  induction l with
  | nil => rfl
  | cons p rest ih =>
    obtain ⟨k', v'⟩ := p
    by_cases hk : k' = k
    · subst hk
      simpa [regErase] using ih
    · simp only [regErase, List.filter_cons]
      rw [if_pos (by simpa using hk)]
      rw [regLookup_cons, if_neg hk]
      simpa [regErase] using ih

/-- The slot registered for `cid` is either still empty or filled with an
envelope stamped `cid`. -/
def SlotInv (cid : Nat) (l : List (Nat × Option Envelope)) : Prop :=
  regLookup cid l = some none ∨
    ∃ r, regLookup cid l = some (some r) ∧ r.cid = some cid

theorem resolveCID_slotInv (s : ClientState) (e : Envelope) (cid : Nat)
    (h : SlotInv cid s.cidHandlers) : SlotInv cid (resolveCID s e).cidHandlers := by
  rcases he : e.cid with _ | k
  · simpa [resolveCID, he] using h
  · rcases hl : regLookup k s.cidHandlers with _ | slot
    · simpa [resolveCID, he, hl] using h
    · rcases slot with _ | r
      · simp only [resolveCID, he, hl]
        by_cases hkc : k = cid
        · subst hkc
          right
          exact ⟨e, regLookup_set_self k (some e) s.cidHandlers (by simp [hl]), he⟩
        · unfold SlotInv at h ⊢
          rw [regLookup_set_other cid k (some e) hkc s.cidHandlers]
          exact h
      · simpa [resolveCID, he, hl] using h

theorem processInbound_slotInv (s : ClientState) (e : Envelope) (cid : Nat)
    (h : SlotInv cid s.cidHandlers) : SlotInv cid (processInbound s e).cidHandlers := by
  rcases he : e.cid with _ | k
  · simpa [processInbound, he] using h
  · have := resolveCID_slotInv s e cid h
    simpa [processInbound, he] using this

theorem foldl_processInbound_slotInv (inbound : List Envelope) :
    ∀ s : ClientState, ∀ cid : Nat, SlotInv cid s.cidHandlers →
      SlotInv cid (inbound.foldl processInbound s).cidHandlers := by
  induction inbound with
  | nil => intro s cid h; exact h
  | cons e rest ih =>
    intro s cid h
    rw [List.foldl_cons]
    exact ih _ _ (processInbound_slotInv s e cid h)

theorem processInbound_nextCID (s : ClientState) (e : Envelope) :
    (processInbound s e).nextCID = s.nextCID := by
  rcases he : e.cid with _ | k
  · simp [processInbound, he]
  · rcases hl : regLookup k s.cidHandlers with _ | slot
    · simp [processInbound, resolveCID, he, hl]
    · rcases slot with _ | r <;> simp [processInbound, resolveCID, he, hl]

theorem foldl_processInbound_nextCID (inbound : List Envelope) :
    ∀ s : ClientState, (inbound.foldl processInbound s).nextCID = s.nextCID := by
  induction inbound with
  | nil => intro s; rfl
  | cons e rest ih =>
    intro s
    rw [List.foldl_cons, ih, processInbound_nextCID]


theorem lookup_none_of_keys_lt (n : Nat) :
    ∀ l : List (Nat × Option Envelope), (∀ p ∈ l, p.1 < n) → regLookup n l = none := by
  intro l
  induction l with
  | nil => intro _; rfl
  | cons p rest ih =>
    intro hall
    obtain ⟨k, v⟩ := p
    have hk : k < n := hall (k, v) (List.mem_cons_self _ _)
    rw [regLookup_cons, if_neg (by omega)]
    exact ih (fun q hq => hall q (List.mem_cons_of_mem _ hq))

theorem registryInv_lookup_fresh (s : ClientState) (h : RegistryInv s = true) :
    regLookup s.nextCID s.cidHandlers = none := by
  unfold RegistryInv at h
  rw [List.all_eq_true] at h
  apply lookup_none_of_keys_lt
  intro p hp
  have := h p hp
  rw [Bool.and_eq_true] at this
  simpa using this.1

/-- Unfolding of `sendWithResponse` in the all-flags-good case. -/
theorem sendWithResponse_run (s : ClientState) (inbound : List Envelope)
    (ctxDone : Bool) :
    sendWithResponse s true true true inbound ctxDone =
      (match regLookup s.nextCID (inbound.foldl processInbound
          { nextCID := s.nextCID + 1,
            cidHandlers := (s.nextCID, none) :: s.cidHandlers }).cidHandlers with
        | some (some e) => SendResult.response e e.isError
        | _ => if ctxDone then SendResult.cancelled else SendResult.timedOut,
       { inbound.foldl processInbound
          { nextCID := s.nextCID + 1,
            cidHandlers := (s.nextCID, none) :: s.cidHandlers } with
         cidHandlers := regErase s.nextCID (inbound.foldl processInbound
          { nextCID := s.nextCID + 1,
            cidHandlers := (s.nextCID, none) :: s.cidHandlers }).cidHandlers }) := rfl

/-- C3: `sendWithResponse` stamps the fresh allocator value `nextCID` on
the envelope, a value absent from the pending registry; any returned
envelope carries exactly that cid, so a response with a different cid is
never returned; when no response was delivered the result is the timeout
or the context-cancelled error; and on every return path the pending
entry for the stamped cid is absent from the registry. -/
theorem c3_send_with_response (s : ClientState) (connOk marshalOk writeOk : Bool)
    (inbound : List Envelope) (ctxDone : Bool)
    (hinv : RegistryInv s = true) :
    regLookup s.nextCID s.cidHandlers = none ∧
    (∀ e b, (sendWithResponse s connOk marshalOk writeOk inbound ctxDone).1 =
        .response e b → e.cid = some s.nextCID) ∧
    regLookup s.nextCID
      (sendWithResponse s connOk marshalOk writeOk inbound ctxDone).2.cidHandlers = none ∧
    (connOk = true → marshalOk = true → writeOk = true →
      (∀ e b, (sendWithResponse s connOk marshalOk writeOk inbound ctxDone).1 ≠
          .response e b) →
      (sendWithResponse s connOk marshalOk writeOk inbound ctxDone).1 =
        (if ctxDone then .cancelled else .timedOut)) ∧
    (connOk = true →
      (sendWithResponse s connOk marshalOk writeOk inbound ctxDone).2.nextCID =
        s.nextCID + 1) := by
  have hfresh := registryInv_lookup_fresh s hinv
  cases connOk with
  | false =>
    refine ⟨hfresh, ?_, ?_, ?_, ?_⟩
    · intro e b hres
      simp [sendWithResponse] at hres
    · simpa [sendWithResponse] using hfresh
    · intro hcontr; cases hcontr
    · intro hcontr; cases hcontr
  | true =>
    cases marshalOk with
    | false =>
      refine ⟨hfresh, ?_, ?_, ?_, ?_⟩
      · intro e b hres
        simp [sendWithResponse, generateCID] at hres
      · simp only [sendWithResponse, generateCID, Bool.not_true, Bool.not_false,
          if_neg, if_pos, Bool.false_eq_true, if_false, if_true]
        exact regLookup_erase _ _
      · intro _ hcontr; cases hcontr
      · intro _
        simp [sendWithResponse, generateCID]
    | true =>
      cases writeOk with
      | false =>
        refine ⟨hfresh, ?_, ?_, ?_, ?_⟩
        · intro e b hres
          simp [sendWithResponse, generateCID] at hres
        · simp only [sendWithResponse, generateCID, Bool.not_true, Bool.not_false,
            Bool.false_eq_true, if_false, if_true]
          exact regLookup_erase _ _
        · intro _ _ hcontr; cases hcontr
        · intro _
          simp [sendWithResponse, generateCID]
      | true =>
        have hslot := foldl_processInbound_slotInv inbound
          { nextCID := s.nextCID + 1,
            cidHandlers := (s.nextCID, none) :: s.cidHandlers }
          s.nextCID (Or.inl (by rw [regLookup_cons, if_pos rfl]))
        refine ⟨hfresh, ?_, ?_, ?_, ?_⟩
        · intro e b hres
          rw [sendWithResponse_run] at hres
          rcases hslot with hempty | ⟨r, hfull, hr⟩
          · rw [hempty] at hres
            simp only at hres
            split at hres <;> cases hres
          · rw [hfull] at hres
            simp only at hres
            injection hres with h1 _
            exact h1 ▸ hr
        · rw [sendWithResponse_run]
          exact regLookup_erase _ _
        · intro _ _ _ hne
          rw [sendWithResponse_run] at hne ⊢
          rcases hslot with hempty | ⟨r, hfull, _⟩
          · rw [hempty]
          · rw [hfull] at hne
            exact absurd rfl (hne r r.isError)
        · intro _
          rw [sendWithResponse_run]
          simp only
          rw [foldl_processInbound_nextCID]

/-- Witness for C3 at a concrete state: one older pending request, two
inbound frames of which only the second matches the stamped cid 4. -/
theorem c3_send_with_response_witness :
    RegistryInv { nextCID := 4, cidHandlers := [(2, none)] } = true ∧
    (∀ e b,
      (sendWithResponse { nextCID := 4, cidHandlers := [(2, none)] } true true true
        [{ cid := some 2, isError := false }, { cid := some 4, isError := false }]
        false).1 = .response e b → e.cid = some 4) := by
  refine ⟨by decide, ?_⟩
  exact (c3_send_with_response { nextCID := 4, cidHandlers := [(2, none)] }
    true true true
    [{ cid := some 2, isError := false }, { cid := some 4, isError := false }]
    false (by decide)).2.1

/-! ## Go string primitives

The Go `strings` functions used by the SDP patcher and the location
parser, modelled over character lists.  `goSplitFuel` uses the source
length as structural fuel so that concrete runs reduce inside the
kernel; the fuel never runs out because every recursive call shortens
the input (Go's `strings.Split` with an empty separator, which splits
into single characters, is not needed here and falls back to the
whole-string result). -/

def goIsSpace (c : Char) : Bool :=
  c = ' ' || c = '\t' || c = '\n' || c = '\r' || c = '\x0b' || c = '\x0c'

/-- Model of `strings.TrimSpace` (ASCII whitespace). -/
def goTrim (s : String) : String :=
  ⟨((s.data.dropWhile goIsSpace).reverse.dropWhile goIsSpace).reverse⟩

def listContainsSub (sub : List Char) : List Char → Bool
  | [] => sub.isEmpty
  | c :: rest => sub.isPrefixOf (c :: rest) || listContainsSub sub rest

/-- Model of `strings.Contains`. -/
def goContains (s sub : String) : Bool :=
  listContainsSub sub.data s.data

/-- Model of `strings.HasPrefix`. -/
def goHasPrefix (s pre : String) : Bool :=
  pre.data.isPrefixOf s.data

def goSplitFuel (sep : List Char) : Nat → List Char → List (List Char)
  | _, [] => [[]]
  | 0, s => [s]
  | fuel + 1, c :: rest =>
    if sep.isPrefixOf (c :: rest) && !sep.isEmpty then
      [] :: goSplitFuel sep fuel ((c :: rest).drop sep.length)
    else
      match goSplitFuel sep fuel rest with
      | part :: parts => (c :: part) :: parts
      | [] => [[c]]

/-- Model of `strings.Split` for a non-empty separator. -/
def goSplit (s sep : String) : List String :=
  (goSplitFuel sep.data s.data.length s.data).map String.mk

/-- Model of `strings.Join`. -/
def goJoin (sep : String) : List String → String
  | [] => ""
  | [p] => p
  | p :: rest => p ++ sep ++ goJoin sep rest

/-! ## Location extraction from chat messages (internal/client/event_handlers.go)

`extractLocationFromMessage` unmarshals the message content JSON into
`MessageContent{T, Fwd}` and, unless its guard rejects the message,
looks for a Google-Maps URL in `T` and parses the coordinates.
`json.Unmarshal` and `net/url` are external packages: the unmarshal call
is represented by its outcome (error flag plus the possibly partially
populated target struct), and the URL helpers below model the `net/url`
lookups for URLs without percent-escapes, which is what this handler
receives.  Coordinates are idealized as rationals; the decimal literals
involved are exact. -/

def GoogleMapsPattern : String := "google.com/maps"

/-- Everything after the first occurrence of `sep`, if any. -/
def cutAfterFirst (s sep : String) : Option String :=
  match goSplit s sep with
  | [] => none
  | [_] => none
  | _ :: rest => some (goJoin sep rest)

/-- Model of `net/url`: the raw query of a URL is what follows the first
`?`, with any `#`-fragment stripped first. -/
def urlRawQuery (u : String) : String :=
  let noFrag := ((goSplit u "#").headD u)
  (cutAfterFirst noFrag "?").getD ""

/-- Model of `net/url`: the path of a `scheme://host/path` URL, with
query and fragment stripped. -/
def urlPath (u : String) : String :=
  let noFrag := ((goSplit u "#").headD u)
  let noQuery := ((goSplit noFrag "?").headD noFrag)
  match cutAfterFirst noQuery "://" with
  | some hostAndPath =>
    match cutAfterFirst hostAndPath "/" with
    | some p => "/" ++ p
    | none => ""
  | none => noQuery

/-- Model of `net/url`: `Query().Get(key)` returns the first value bound
to `key`, splitting the raw query on `&` and each pair at the first
`=`. -/
def queryGet (rawQuery key : String) : String :=
  (((goSplit rawQuery "&").filterMap (fun pair =>
    match goSplit pair "=" with
    | k :: rest => if k = key then some (goJoin "=" rest) else none
    | [] => none)).headD "")

def digitsToNat (cs : List Char) : Option Nat :=
  if cs = [] then none
  else if cs.all Char.isDigit then
    some (cs.foldl (fun n c => n * 10 + (c.toNat - 48)) 0)
  else none

/-- A decimal number `mantissa / 10 ^ scale`, the exact value of a
parsed coordinate literal. -/
structure Decimal where
  mantissa : Int
  scale    : Nat
  deriving DecidableEq, Repr

/-- The decimal compared against an integer bound:
`d < n` iff `mantissa < n * 10 ^ scale`. -/
def Decimal.ltInt (d : Decimal) (n : Int) : Bool :=
  d.mantissa < n * ((10 ^ d.scale : Nat) : Int)

def Decimal.gtInt (d : Decimal) (n : Int) : Bool :=
  d.mantissa > n * ((10 ^ d.scale : Nat) : Int)

/-- Model of `strconv.ParseFloat` on the plain decimal forms
`[+|-]digits[.digits]` that Google-Maps URLs carry, idealized to the
exact decimal value (scientific, hex and bare `.5`/`5.` forms do not
occur here). -/
def parseFloat (s : String) : Option Decimal :=
  let signed : Int × List Char :=
    match s.data with
    | '-' :: r => (-1, r)
    | '+' :: r => (1, r)
    | r => (1, r)
  match goSplitFuel ['.'] signed.2.length signed.2 with
  | [intPart] => (digitsToNat intPart).map (fun n => ⟨signed.1 * n, 0⟩)
  | [intPart, fracPart] =>
    match digitsToNat intPart, digitsToNat fracPart with
    | some n, some f =>
      some ⟨signed.1 * (((n * 10 ^ fracPart.length + f : Nat)) : Int), fracPart.length⟩
    | _, _ => none
  | _ => none

/-- Embedding of `validateCoordinates` (event_handlers.go:174). -/
def validateCoordinates (lat lon : Decimal) : Bool :=
  !(lat.ltInt (-90) || lat.gtInt 90 || lon.ltInt (-180) || lon.gtInt 180)

/-- Embedding of `parseCoordinatesString` (event_handlers.go:149). -/
def parseCoordinatesString (coords : String) : Option (Decimal × Decimal) :=
  match goSplit coords "," with
  | [latStr, lonStr] =>
    match parseFloat (goTrim latStr), parseFloat (goTrim lonStr) with
    | some lat, some lon =>
      if validateCoordinates lat lon then some (lat, lon) else none
    | _, _ => none
  | _ => none

/-- Embedding of `parseGoogleMapsURL` (event_handlers.go:118). -/
def parseGoogleMapsURL (mapURL : String) : Option (Decimal × Decimal) :=
  if mapURL = "" then none
  else
    let q := queryGet (urlRawQuery mapURL) "q"
    if q != "" then parseCoordinatesString q
    else
      let path := urlPath mapURL
      if goContains path "/@" then
        match goSplit path "/@" with
        | _ :: second :: _ =>
          (match goSplit second "," with
           | c0 :: c1 :: _ => parseCoordinatesString (c0 ++ "," ++ c1)
           | _ => none)
        | _ => none
      else none

structure MessageContent where
  t   : String
  fwd : Bool
  deriving DecidableEq, Repr

structure LocationInfo where
  latitude  : Decimal
  longitude : Decimal
  isValid   : Bool
  deriving DecidableEq, Repr

/-- Embedding of `extractLocationFromMessage` (event_handlers.go:186).
`unmarshalErr` and `content` are the outcome of the external
`json.Unmarshal` call on the message content (Go's decoder can leave
`content` partially populated when it returns an error).  The Boolean in
the result mirrors the Go error return.  The guard in the source reads
`err != nil && content.Fwd != true`. -/
def extractLocationFromMessage (unmarshalErr : Bool) (content : MessageContent) :
    LocationInfo × Bool :=
  let result : LocationInfo := { latitude := ⟨0, 0⟩, longitude := ⟨0, 0⟩, isValid := false }
  if unmarshalErr && !content.fwd then (result, true)
  else if !(goContains content.t GoogleMapsPattern) then (result, true)
  else
    match parseGoogleMapsURL content.t with
    | none => (result, true)
    | some (lat, lon) => ({ latitude := lat, longitude := lon, isValid := true }, false)

/-- Embedding of the location dispatch in `handleChannelMessage`
(event_handlers.go:91): the `location_message_received` event is emitted
iff extraction returned no error, the location is valid, and
`message.Code` equals `models.CodeLocationSend` (a constant whose
definition is outside the provided sources; only the outcome of the
comparison matters, passed here as `codeIsLocationSend`). -/
def emitsLocationEvent (unmarshalErr : Bool) (content : MessageContent)
    (codeIsLocationSend : Bool) : Bool :=
  !(extractLocationFromMessage unmarshalErr content).2 &&
    (extractLocationFromMessage unmarshalErr content).1.isValid &&
    codeIsLocationSend

/-- C9: a channel message whose content fails JSON parsing but whose
partially decoded struct has `Fwd = true` and a valid Maps URL in `T` is
NOT treated as a non-location message: extraction reports a valid
location and the `location_message_received` event is emitted, contrary
to the claim.  Go produces exactly this unmarshal outcome for the
content string given in the results file, where a duplicate key of the
wrong type makes `json.Unmarshal` return an `UnmarshalTypeError` after
both fields were populated. -/
theorem c9_parse_failure_still_emits :
    extractLocationFromMessage true
        { t := "https://www.google.com/maps?q=10.5,106.5", fwd := true } =
      ({ latitude := ⟨105, 1⟩, longitude := ⟨1065, 1⟩, isValid := true }, false) ∧
    emitsLocationEvent true
        { t := "https://www.google.com/maps?q=10.5,106.5", fwd := true } true = true := by
  constructor
  · decide
  · decide

/-! ## SDP quality patch (internal/utils/sdp.go)

`PatchSDPForQuality` splits the SDP on newlines, copies every line, and
while inside an `m=video` block inserts `b=AS:<asKBPS>` right after the
`m=video` line and one `a=fmtp:<pt> x-google-…` line right after the
VP8 `a=rtpmap:` line.  Output lines are tagged with their provenance so
the insertion discipline can be stated; `OutLine.text` recovers the
actual output. -/

inductive LineKind
  | orig
  | basIns
  | fmtpIns (pt : String)
  deriving DecidableEq, Repr

structure OutLine where
  text : String
  kind : LineKind
  deriving DecidableEq, Repr

structure PatchSt where
  inVideo      : Bool
  videoPayload : String
  insertedFmtp : Bool
  deriving DecidableEq, Repr

def PatchSt.init : PatchSt :=
  { inVideo := false, videoPayload := "", insertedFmtp := false }

/-- Model of `strings.TrimPrefix`. -/
def goTrimPrefix (s pre : String) : String :=
  if goHasPrefix s pre then ⟨s.data.drop pre.data.length⟩ else s

/-- First element of `strings.SplitN(s, " ", 2)`. -/
def goSplitN2First (s : String) : String :=
  (goSplit s " ").headD s

/-- The `strings.HasPrefix(trim, "m=video")` test of the source. -/
def isVideoLine (line : String) : Bool :=
  goHasPrefix (goTrim line) "m=video"

/-- The `HasPrefix(trim, "a=rtpmap:") && Contains(trim, "VP8/90000")`
test of the source. -/
def isVP8RtpmapLine (line : String) : Bool :=
  goHasPrefix (goTrim line) "a=rtpmap:" && goContains (goTrim line) "VP8/90000"

/-- `TrimSpace(parts[0])` for `parts := SplitN(TrimPrefix(trim,
"a=rtpmap:"), " ", 2)`. -/
def rtpmapPayload (line : String) : String :=
  goTrim (goSplitN2First (goTrimPrefix (goTrim line) "a=rtpmap:"))

def basLine (asKBPS : Int) : String :=
  "b=AS:" ++ toString asKBPS

def fmtpLine (pt : String) (minKbps maxKbps : Int) : String :=
  "a=fmtp:" ++ pt ++ " x-google-min-bitrate=" ++ toString minKbps ++
    ";x-google-max-bitrate=" ++ toString maxKbps ++
    ";x-google-start-bitrate=" ++ toString ((minKbps + maxKbps) / 2) ++
    ";max-fr=30;max-fs=3600"

/-- Embedding of the loop of `PatchSDPForQuality` (sdp.go:15).  Inside
the `else if st.inVideo` arm the source tests `HasPrefix(trim, "m=") &&
!HasPrefix(trim, "m=video")`; the second conjunct is already false there
because the first branch of the chain took every `m=video` line.  The
`a=rtpmap:` and `m=` tests of the source are two consecutive `if`s, but
no trimmed line satisfies both prefixes, so an `else if` chain is
equivalent. -/
def patchLines (asKBPS minKbps maxKbps : Int) : PatchSt → List String → List OutLine
  | _, [] => []
  | st, line :: rest =>
    if isVideoLine line then
      (⟨line, .orig⟩ ::
        (if 0 < asKBPS then [⟨basLine asKBPS, .basIns⟩] else [])) ++
        patchLines asKBPS minKbps maxKbps
          { st with inVideo := true, insertedFmtp := false } rest
    else if st.inVideo then
      if isVP8RtpmapLine line then
        let pt := rtpmapPayload line
        if pt ≠ "" ∧ st.insertedFmtp = false ∧ 0 < minKbps ∧ 0 < maxKbps then
          ⟨line, .orig⟩ :: ⟨fmtpLine pt minKbps maxKbps, .fmtpIns pt⟩ ::
            patchLines asKBPS minKbps maxKbps
              { st with videoPayload := pt, insertedFmtp := true } rest
        else
          ⟨line, .orig⟩ ::
            patchLines asKBPS minKbps maxKbps { st with videoPayload := pt } rest
      else if goHasPrefix (goTrim line) "m=" then
        ⟨line, .orig⟩ ::
          patchLines asKBPS minKbps maxKbps { st with inVideo := false } rest
      else
        ⟨line, .orig⟩ :: patchLines asKBPS minKbps maxKbps st rest
    else
      ⟨line, .orig⟩ :: patchLines asKBPS minKbps maxKbps st rest

/-- Embedding of `PatchSDPForQuality` (sdp.go:8): split on newlines, run
the loop from the zero state, join with newlines. -/
def PatchSDPForQuality (sdp : String) (asKBPS minKbps maxKbps : Int) : String :=
  goJoin "\n"
    ((patchLines asKBPS minKbps maxKbps PatchSt.init (goSplit sdp "\n")).map
      OutLine.text)

def isBasIns : LineKind → Bool
  | .basIns => true
  | _ => false

def isFmtpIns : LineKind → Bool
  | .fmtpIns _ => true
  | _ => false

def isOrigKind : LineKind → Bool
  | .orig => true
  | _ => false

/-- Checker for the `b=AS` discipline: an inserted `b=AS` line appears
exactly immediately after each original `m=video` line, with the text
`basLine asKBPS`, and nowhere else.  The accumulator says whether the
previous line was an original `m=video` line. -/
def basPlaced (asKBPS : Int) : Bool → List OutLine → Bool
  | mustBas, [] => !mustBas
  | mustBas, l :: rest =>
    (if mustBas then isBasIns l.kind && decide (l.text = basLine asKBPS)
     else !isBasIns l.kind) &&
      basPlaced asKBPS (isOrigKind l.kind && isVideoLine l.text) rest

/-- Checker for the `a=fmtp` discipline: an inserted fmtp line only
appears immediately after an original VP8 `a=rtpmap:` line, carries that
line's payload type as its key and the exact `fmtpLine` text, and at
most one is inserted per video block (`allowed` resets at each original
`m=video` line and clears at each insertion). -/
def fmtpPlaced (minKbps maxKbps : Int) : Option String → Bool → List OutLine → Bool
  | _, _, [] => true
  | prevRtp, allowed, l :: rest =>
    (match l.kind with
     | .fmtpIns pt =>
       allowed && decide (prevRtp = some pt) &&
         decide (l.text = fmtpLine pt minKbps maxKbps)
     | _ => true) &&
      fmtpPlaced minKbps maxKbps
        (if isOrigKind l.kind && isVP8RtpmapLine l.text then
          some (rtpmapPayload l.text)
         else none)
        (if isOrigKind l.kind && isVideoLine l.text then true
         else if isFmtpIns l.kind then false else allowed)
        rest

def isOrig : LineKind → Bool
  | .orig => true
  | _ => false

theorem isOrig_orig : isOrig .orig = true := rfl

theorem isOrig_bas : isOrig .basIns = false := rfl

theorem isOrig_fmtp (pt : String) : isOrig (.fmtpIns pt) = false := rfl

/-- Every pre-existing line survives unchanged and in order: filtering
the output down to the untagged lines gives back the input lines. -/
theorem patchLines_orig (a mi ma : Int) :
    ∀ (ls : List String) (st : PatchSt),
      ((patchLines a mi ma st ls).filter (fun l => isOrig l.kind)).map OutLine.text
        = ls := by
  intro ls
  induction ls with
  | nil => intro st; rfl
  | cons line rest ih =>
    intro st
    by_cases hv : isVideoLine line = true
    · by_cases ha : 0 < a
      · simp only [patchLines, hv, if_true, if_pos ha]
        simp [List.filter_cons, isOrig_orig, isOrig_bas, ih]
      · simp only [patchLines, hv, if_true, if_neg ha]
        simp [List.filter_cons, isOrig_orig, ih]
    · by_cases hiv : st.inVideo = true
      · by_cases hr : isVP8RtpmapLine line = true
        · by_cases hins : rtpmapPayload line ≠ "" ∧ st.insertedFmtp = false ∧
              0 < mi ∧ 0 < ma
          · simp only [patchLines, hv, hiv, hr, if_true, if_pos hins,
              Bool.false_eq_true, if_false]
            simp [List.filter_cons, isOrig_orig, isOrig_fmtp, ih]
          · simp only [patchLines, hv, hiv, hr, if_true, if_neg hins,
              Bool.false_eq_true, if_false]
            simp [List.filter_cons, isOrig_orig, ih]
        · by_cases hm : goHasPrefix (goTrim line) "m=" = true
          · simp only [patchLines, hv, hiv, hr, hm, if_true,
              Bool.false_eq_true, if_false]
            simp [List.filter_cons, isOrig_orig, ih]
          · simp only [patchLines, hv, hiv, hr, hm, Bool.false_eq_true, if_false]
            simp [List.filter_cons, isOrig_orig, ih]
      · simp only [patchLines, hv, hiv, Bool.false_eq_true, if_false]
        simp [List.filter_cons, isOrig_orig, ih]

theorem isBasIns_orig : isBasIns .orig = false := rfl

theorem isBasIns_bas : isBasIns .basIns = true := rfl

theorem isBasIns_fmtp (pt : String) : isBasIns (.fmtpIns pt) = false := rfl

theorem isOrigKind_orig : isOrigKind .orig = true := rfl

theorem isOrigKind_bas : isOrigKind .basIns = false := rfl

theorem isOrigKind_fmtp (pt : String) : isOrigKind (.fmtpIns pt) = false := rfl

theorem isFmtpIns_orig : isFmtpIns .orig = false := rfl

theorem isFmtpIns_bas : isFmtpIns .basIns = false := rfl

theorem isFmtpIns_fmtp (pt : String) : isFmtpIns (.fmtpIns pt) = true := rfl

/-- The `b=AS` insertion discipline holds for every input and every loop
state, with a non-previous-video start. -/
theorem patchLines_basPlaced (a mi ma : Int) (ha : 0 < a) :
    ∀ (ls : List String) (st : PatchSt),
      basPlaced a false (patchLines a mi ma st ls) = true := by
  intro ls
  induction ls with
  | nil => intro st; rfl
  | cons line rest ih =>
    intro st
    by_cases hv : isVideoLine line = true
    · simp only [patchLines, hv, if_true, if_pos ha, List.cons_append,
        List.nil_append, basPlaced, isBasIns_orig, isBasIns_bas, isOrigKind_orig,
        isOrigKind_bas]
      simp [hv, ih]
    · by_cases hiv : st.inVideo = true
      · by_cases hr : isVP8RtpmapLine line = true
        · by_cases hins : rtpmapPayload line ≠ "" ∧ st.insertedFmtp = false ∧
              0 < mi ∧ 0 < ma
          · simp only [patchLines, hv, hiv, hr, if_true, if_pos hins,
              Bool.false_eq_true, if_false, basPlaced, isBasIns_orig,
              isBasIns_fmtp, isOrigKind_orig, isOrigKind_fmtp]
            simp [hv, ih]
          · simp only [patchLines, hv, hiv, hr, if_true, if_neg hins,
              Bool.false_eq_true, if_false, basPlaced, isBasIns_orig,
              isOrigKind_orig]
            simp [hv, ih]
        · by_cases hm : goHasPrefix (goTrim line) "m=" = true
          · simp only [patchLines, hv, hiv, hr, hm, if_true,
              Bool.false_eq_true, if_false, basPlaced, isBasIns_orig,
              isOrigKind_orig]
            simp [hv, ih]
          · simp only [patchLines, hv, hiv, hr, hm, Bool.false_eq_true,
              if_false, basPlaced, isBasIns_orig, isOrigKind_orig]
            simp [hv, ih]
      · simp only [patchLines, hv, hiv, Bool.false_eq_true, if_false,
          basPlaced, isBasIns_orig, isOrigKind_orig]
        simp [hv, ih]

/-- The `a=fmtp` insertion discipline holds for every input and every
loop state whose `insertedFmtp` flag matches the checker's `allowed`
accumulator. -/
theorem patchLines_fmtpPlaced (a mi ma : Int) :
    ∀ (ls : List String) (st : PatchSt) (prevRtp : Option String),
      fmtpPlaced mi ma prevRtp (!st.insertedFmtp) (patchLines a mi ma st ls) = true := by
  intro ls
  induction ls with
  | nil => intro st prevRtp; rfl
  | cons line rest ih =>
    intro st prevRtp
    by_cases hv : isVideoLine line = true
    · by_cases ha : 0 < a
      · simp only [patchLines, hv, if_true, if_pos ha, List.cons_append,
          List.nil_append, fmtpPlaced, isOrigKind_orig, isOrigKind_bas,
          isFmtpIns_orig, isFmtpIns_bas]
        simpa [hv] using ih { st with inVideo := true, insertedFmtp := false } none
      · simp only [patchLines, hv, if_true, if_neg ha, List.nil_append,
          List.cons_append, fmtpPlaced, isOrigKind_orig, isFmtpIns_orig]
        simpa [hv] using
          ih { st with inVideo := true, insertedFmtp := false }
            (if isVP8RtpmapLine line = true then some (rtpmapPayload line) else none)
    · by_cases hiv : st.inVideo = true
      · by_cases hr : isVP8RtpmapLine line = true
        · by_cases hins : rtpmapPayload line ≠ "" ∧ st.insertedFmtp = false ∧
              0 < mi ∧ 0 < ma
          · simp only [patchLines, hv, hiv, hr, if_true, if_pos hins,
              Bool.false_eq_true, if_false, fmtpPlaced, isOrigKind_orig,
              isOrigKind_fmtp, isFmtpIns_orig, isFmtpIns_fmtp]
            simpa [hv, hr, hins.2.1] using
              ih { inVideo := true, videoPayload := rtpmapPayload line,
                   insertedFmtp := true } none
          · simp only [patchLines, hv, hiv, hr, if_true, if_neg hins,
              Bool.false_eq_true, if_false, fmtpPlaced, isOrigKind_orig,
              isFmtpIns_orig]
            simpa [hv, hr] using
              ih { inVideo := true, videoPayload := rtpmapPayload line,
                   insertedFmtp := st.insertedFmtp } (some (rtpmapPayload line))
        · by_cases hm : goHasPrefix (goTrim line) "m=" = true
          · simp only [patchLines, hv, hiv, hr, hm, if_true,
              Bool.false_eq_true, if_false, fmtpPlaced, isOrigKind_orig,
              isFmtpIns_orig]
            simpa [hv, hr] using ih { st with inVideo := false } none
          · simp only [patchLines, hv, hiv, hr, hm, Bool.false_eq_true,
              if_false, fmtpPlaced, isOrigKind_orig, isFmtpIns_orig]
            simpa [hv, hr] using ih st none
      · simp only [patchLines, hv, hiv, Bool.false_eq_true, if_false,
          fmtpPlaced, isOrigKind_orig, isFmtpIns_orig]
        by_cases hr : isVP8RtpmapLine line = true
        · simpa [hv, hr] using ih st (some (rtpmapPayload line))
        · simpa [hv, hr] using ih st none

/-- C7: for every SDP string, `PatchSDPForQuality sdp 2500 1500 3000`
keeps every pre-existing line unchanged and in its original order
(including `a=fmtp` lines of non-VP8 payload types), inserts the line
`b=AS:2500` exactly once per `m=video` block — immediately after the
`m=video` line — and nowhere else, and appends at most one `a=fmtp`
line per video block, keyed to the payload type of the `VP8/90000`
rtpmap line it directly follows and carrying the x-google bitrate
parameters with start bitrate 2250. -/
theorem c7_sdp_patch (sdp : String) :
    ((patchLines 2500 1500 3000 PatchSt.init (goSplit sdp "\n")).filter
        (fun l => isOrig l.kind)).map OutLine.text = goSplit sdp "\n" ∧
    basPlaced 2500 false
      (patchLines 2500 1500 3000 PatchSt.init (goSplit sdp "\n")) = true ∧
    fmtpPlaced 1500 3000 none true
      (patchLines 2500 1500 3000 PatchSt.init (goSplit sdp "\n")) = true ∧
    basLine 2500 = "b=AS:2500" ∧
    (∀ pt, fmtpLine pt 1500 3000 =
      "a=fmtp:" ++ pt ++
        " x-google-min-bitrate=1500;x-google-max-bitrate=3000;x-google-start-bitrate=2250;max-fr=30;max-fs=3600") ∧
    PatchSDPForQuality sdp 2500 1500 3000 =
      goJoin "\n" ((patchLines 2500 1500 3000 PatchSt.init (goSplit sdp "\n")).map
        OutLine.text) := by
  refine ⟨patchLines_orig 2500 1500 3000 _ _,
    patchLines_basPlaced 2500 1500 3000 (by norm_num) _ _, ?_, rfl, ?_, rfl⟩
  · simpa using
      patchLines_fmtpPlaced 2500 1500 3000 (goSplit sdp "\n") PatchSt.init none
  · intro pt
    rw [fmtpLine]
    simp only [String.append_assoc]
    congr 1

/-! ## Office-location validation (internal/webrtc/location.go)

The Go code computes the haversine distance with `float64`; the model
idealizes `float64` arithmetic over the reals (`math.Sin`/`Cos`/`Atan2`/
`Sqrt` become their exact counterparts, decimal literals their exact
values).  `LocationConfig.offices` holds what `GetOffices` returns: the
`enabled` subset that `LoadOffices` kept. -/

noncomputable section RealLocation

open Classical

/-- Embedding of `toRadians` (location.go:163). -/
def toRadians (degrees : ℝ) : ℝ :=
  degrees * Real.pi / 180.0

/-- Model of Go `math.Atan2` (external math library). -/
def atan2 (y x : ℝ) : ℝ :=
  if 0 < x then Real.arctan (y / x)
  else if x < 0 then
    (if 0 ≤ y then Real.arctan (y / x) + Real.pi
     else Real.arctan (y / x) - Real.pi)
  else if 0 < y then Real.pi / 2
  else if y < 0 then -(Real.pi / 2)
  else 0

/-- Embedding of `calculateDistance` (location.go:167): the haversine
formula with Earth radius 6 371 000 m. -/
def calculateDistance (lat1 lon1 lat2 lon2 : ℝ) : ℝ :=
  let earthRadiusMeters : ℝ := 6371000.0
  let lat1Rad := toRadians lat1
  let lat2Rad := toRadians lat2
  let deltaLat := toRadians (lat2 - lat1)
  let deltaLon := toRadians (lon2 - lon1)
  let a := Real.sin (deltaLat / 2) * Real.sin (deltaLat / 2) +
    Real.cos lat1Rad * Real.cos lat2Rad *
      Real.sin (deltaLon / 2) * Real.sin (deltaLon / 2)
  let c := 2 * atan2 (Real.sqrt a) (Real.sqrt (1 - a))
  earthRadiusMeters * c

structure Office where
  id           : String
  name         : String
  latitude     : ℝ
  longitude    : ℝ
  radiusMeters : ℝ
  enabled      : Bool

/-- `LoadOffices` (location.go:53) keeps only the offices whose
`enabled` flag is set. -/
def loadedOffices (fromFile : List Office) : List Office :=
  fromFile.filter (fun o => o.enabled)

structure LocationMatch where
  office   : Office
  distance : ℝ
  isValid  : Bool

/-- One iteration of the `findNearestOffice` loop (location.go:197):
build the match for this office and keep it when there is no best match
yet or it is strictly closer. -/
def nearestStep (lat lon : ℝ) (best : Option LocationMatch) (office : Office) :
    Option LocationMatch :=
  let distance := calculateDistance office.latitude office.longitude lat lon
  let m : LocationMatch :=
    { office := office, distance := distance,
      isValid := if distance ≤ office.radiusMeters then true else false }
  match best with
  | none => some m
  | some b => if distance < b.distance then some m else some b

/-- Embedding of `findNearestOffice` (location.go:188) over the loaded
(enabled) offices. -/
def findNearestOffice (offices : List Office) (lat lon : ℝ) :
    Option LocationMatch :=
  offices.foldl (nearestStep lat lon) none

structure LocationConfig where
  enabled : Bool
  offices : List Office

/-- Embedding of `validateLocation` (location.go:223): disabled
validation accepts everything; then the zero-coordinate check, the range
check, and the nearest-office radius check. -/
def validateLocation (cfg : LocationConfig) (lat lon : ℝ) : Bool :=
  if !cfg.enabled then true
  else if lat = 0 ∧ lon = 0 then false
  else if lat < -90 ∨ lat > 90 ∨ lon < -180 ∨ lon > 180 then false
  else
    match findNearestOffice cfg.offices lat lon with
    | none => false
    | some m => m.isValid

end RealLocation

/-- C10: with the location configuration disabled, `validateLocation`
returns true for every coordinate pair — including (0, 0) and
coordinates outside the valid ranges — because the disabled check
precedes all other checks. -/
theorem c10_disabled_accepts_everything (offices : List Office) (lat lon : ℝ) :
    validateLocation { enabled := false, offices := offices } lat lon = true ∧
    validateLocation { enabled := false, offices := offices } 0 0 = true ∧
    validateLocation { enabled := false, offices := offices } 200 300 = true := by
  refine ⟨?_, ?_, ?_⟩ <;> simp [validateLocation]

theorem arctan_le_self {t : ℝ} (ht : 0 ≤ t) : Real.arctan t ≤ t := by
  rcases eq_or_lt_of_le ht with h | h
  · simp [← h, Real.arctan_zero]
  · have hy0 : 0 < Real.arctan t := by
      have := Real.arctan_strictMono h
      simpa [Real.arctan_zero] using this
    have hy2 : Real.arctan t < Real.pi / 2 := Real.arctan_lt_pi_div_two t
    have := Real.lt_tan hy0 hy2
    rw [Real.tan_arctan] at this
    exact le_of_lt this

theorem arctan_nonneg_of_nonneg {t : ℝ} (ht : 0 ≤ t) : 0 ≤ Real.arctan t := by
  have := Real.arctan_strictMono.monotone ht
  simpa [Real.arctan_zero] using this

theorem atan2_eq_arctan {y x : ℝ} (hx : 0 < x) :
    atan2 y x = Real.arctan (y / x) := by
  unfold atan2
  rw [if_pos hx]

/-- Upper bound on the haversine central angle: for `a ≤ 1/2`,
`2 * atan2 (√a) (√(1-a)) ≤ 2 * √(2a)`. -/
theorem hav_angle_le {a : ℝ} (ha0 : 0 ≤ a) (ha : a ≤ 1 / 2) :
    2 * atan2 (Real.sqrt a) (Real.sqrt (1 - a)) ≤ 2 * Real.sqrt (2 * a) := by
  have h1a : (0:ℝ) < 1 - a := by linarith
  have hx : 0 < Real.sqrt (1 - a) := Real.sqrt_pos.mpr h1a
  rw [atan2_eq_arctan hx]
  have htn : 0 ≤ Real.sqrt a / Real.sqrt (1 - a) :=
    div_nonneg (Real.sqrt_nonneg a) (le_of_lt hx)
  have h2 : Real.sqrt a / Real.sqrt (1 - a) ≤ Real.sqrt (2 * a) := by
    rw [div_le_iff₀ hx, ← Real.sqrt_mul (by linarith : (0:ℝ) ≤ 2 * a)]
    apply Real.sqrt_le_sqrt
    nlinarith
  have h3 := arctan_le_self htn
  linarith

/-- Lower bound on the haversine central angle: for `a < 1`,
`2 * √a ≤ 2 * atan2 (√a) (√(1-a))`. -/
theorem hav_angle_ge {a : ℝ} (ha0 : 0 ≤ a) (ha : a < 1) :
    2 * Real.sqrt a ≤ 2 * atan2 (Real.sqrt a) (Real.sqrt (1 - a)) := by
  have h1a : (0:ℝ) < 1 - a := by linarith
  have hx : 0 < Real.sqrt (1 - a) := Real.sqrt_pos.mpr h1a
  rw [atan2_eq_arctan hx]
  set t := Real.sqrt a / Real.sqrt (1 - a) with htdef
  have htn : 0 ≤ t := div_nonneg (Real.sqrt_nonneg a) (le_of_lt hx)
  have hsin : Real.sin (Real.arctan t) = Real.sqrt a := by
    rw [Real.sin_arctan]
    have hsq : 1 + t ^ 2 = 1 / (1 - a) := by
      rw [htdef, div_pow, Real.sq_sqrt ha0, Real.sq_sqrt (le_of_lt h1a)]
      field_simp
    rw [hsq, Real.sqrt_div (by norm_num : (0:ℝ) ≤ 1) (1 - a), Real.sqrt_one,
      htdef]
    field_simp
  have hy0 : 0 ≤ Real.arctan t := arctan_nonneg_of_nonneg htn
  have hkey : Real.sqrt a ≤ Real.arctan t := by
    rw [← hsin]
    calc Real.sin (Real.arctan t) ≤ |Real.sin (Real.arctan t)| := le_abs_self _
      _ ≤ |Real.arctan t| := Real.abs_sin_le_abs
      _ = Real.arctan t := abs_of_nonneg hy0
  linarith

theorem sin_mul_self_le_mul_self (x : ℝ) :
    Real.sin x * Real.sin x ≤ x * x := by
  have h := Real.abs_sin_le_abs (x := x)
  calc Real.sin x * Real.sin x = |Real.sin x| * |Real.sin x| :=
        (abs_mul_abs_self _).symm
    _ ≤ |x| * |x| :=
        mul_le_mul h h (abs_nonneg _) (abs_nonneg _)
    _ = x * x := abs_mul_abs_self x

/-- Distance of the reply to one office, in the argument order the
source uses. -/
noncomputable def officeDistance (o : Office) (lat lon : ℝ) : ℝ :=
  calculateDistance o.latitude o.longitude lat lon

theorem nearestStep_fold (lat lon : ℝ) :
    ∀ (os : List Office) (b : LocationMatch),
      b.distance = officeDistance b.office lat lon →
      (b.isValid = true ↔ b.distance ≤ b.office.radiusMeters) →
      ∃ m, os.foldl (nearestStep lat lon) (some b) = some m ∧
        (m = b ∨ m.office ∈ os) ∧
        m.distance = officeDistance m.office lat lon ∧
        (m.isValid = true ↔ m.distance ≤ m.office.radiusMeters) ∧
        m.distance ≤ b.distance ∧
        ∀ o ∈ os, m.distance ≤ officeDistance o lat lon := by
  intro os
  induction os with
  | nil =>
    intro b hb hv
    exact ⟨b, rfl, Or.inl rfl, hb, hv, le_refl _, by simp⟩
  | cons o os ih =>
    intro b hb hv
    rw [List.foldl_cons]
    by_cases hlt : calculateDistance o.latitude o.longitude lat lon < b.distance
    · have hstep : nearestStep lat lon (some b) o =
          some { office := o,
                 distance := calculateDistance o.latitude o.longitude lat lon,
                 isValid := if calculateDistance o.latitude o.longitude lat lon ≤
                     o.radiusMeters then true else false } := by
        simp only [nearestStep, if_pos hlt]
      rw [hstep]
      obtain ⟨m, hm, hmem, hd, hiv, hle, hmin⟩ := ih
        { office := o,
          distance := calculateDistance o.latitude o.longitude lat lon,
          isValid := if calculateDistance o.latitude o.longitude lat lon ≤
              o.radiusMeters then true else false }
        rfl (by split <;> simp_all)
      refine ⟨m, hm, ?_, hd, hiv, by simp only at hle; linarith, ?_⟩
      · rcases hmem with h | h
        · subst h; exact Or.inr (List.mem_cons_self _ _)
        · exact Or.inr (List.mem_cons_of_mem _ h)
      · intro o2 ho2
        rcases List.mem_cons.mp ho2 with h | h
        · subst h
          simp only at hle
          simpa [officeDistance] using hle
        · exact hmin o2 h
    · have hstep : nearestStep lat lon (some b) o = some b := by
        simp only [nearestStep, if_neg hlt]
      rw [hstep]
      obtain ⟨m, hm, hmem, hd, hiv, hle, hmin⟩ := ih b hb hv
      refine ⟨m, hm, ?_, hd, hiv, hle, ?_⟩
      · rcases hmem with h | h
        · exact Or.inl h
        · exact Or.inr (List.mem_cons_of_mem _ h)
      · intro o2 ho2
        rcases List.mem_cons.mp ho2 with h | h
        · subst h
          have : b.distance ≤ officeDistance o2 lat lon := by
            simpa [officeDistance] using not_lt.mp hlt
          linarith
        · exact hmin o2 h

/-- `findNearestOffice` on a nonempty office list returns a match for an
office of minimal haversine distance, whose `isValid` flag is the radius
comparison for that office. -/
theorem findNearestOffice_nearest (offices : List Office) (lat lon : ℝ)
    (hne : offices ≠ []) :
    ∃ m, findNearestOffice offices lat lon = some m ∧
      m.office ∈ offices ∧
      m.distance = officeDistance m.office lat lon ∧
      (m.isValid = true ↔ m.distance ≤ m.office.radiusMeters) ∧
      ∀ o ∈ offices, m.distance ≤ officeDistance o lat lon := by
  cases offices with
  | nil => exact absurd rfl hne
  | cons o0 os =>
    unfold findNearestOffice
    rw [List.foldl_cons]
    have hstep : nearestStep lat lon none o0 =
        some { office := o0,
               distance := calculateDistance o0.latitude o0.longitude lat lon,
               isValid := if calculateDistance o0.latitude o0.longitude lat lon ≤
                   o0.radiusMeters then true else false } := rfl
    rw [hstep]
    obtain ⟨m, hm, hmem, hd, hiv, hle, hmin⟩ := nearestStep_fold lat lon os
      { office := o0,
        distance := calculateDistance o0.latitude o0.longitude lat lon,
        isValid := if calculateDistance o0.latitude o0.longitude lat lon ≤
            o0.radiusMeters then true else false }
      rfl (by split <;> simp_all)
    refine ⟨m, hm, ?_, hd, hiv, ?_⟩
    · rcases hmem with h | h
      · subst h; exact List.mem_cons_self _ _
      · exact List.mem_cons_of_mem _ h
    · intro o2 ho2
      rcases List.mem_cons.mp ho2 with h | h
      · subst h
        simp only at hle
        simpa [officeDistance] using hle
      · exact hmin o2 h

/-- The haversine `a` term of `calculateDistance`. -/
noncomputable def havA (lat1 lon1 lat2 lon2 : ℝ) : ℝ :=
  Real.sin (toRadians (lat2 - lat1) / 2) * Real.sin (toRadians (lat2 - lat1) / 2) +
    Real.cos (toRadians lat1) * Real.cos (toRadians lat2) *
      Real.sin (toRadians (lon2 - lon1) / 2) * Real.sin (toRadians (lon2 - lon1) / 2)

theorem calculateDistance_eq (lat1 lon1 lat2 lon2 : ℝ) :
    calculateDistance lat1 lon1 lat2 lon2 =
      6371000.0 * (2 * atan2 (Real.sqrt (havA lat1 lon1 lat2 lon2))
        (Real.sqrt (1 - havA lat1 lon1 lat2 lon2))) := rfl

set_option maxHeartbeats 1000000 in
/-- The accepted reply of the spec scenario lies well inside the 100 m
radius of the HN1 office. -/
theorem accept_distance_le :
    calculateDistance 20.9725054 105.7575887 20.97251 105.75759 ≤ 100 := by
  have hπu : Real.pi < 3.1416 := Real.pi_lt_d4
  have hπl : (3.1415:ℝ) < Real.pi := Real.pi_gt_d4
  rw [calculateDistance_eq]
  have hx : ((20.97251:ℝ) - 20.9725054) * Real.pi / 180.0 / 2 ≤ 4.02e-8 := by
    nlinarith
  have hx0 : (0:ℝ) ≤ ((20.97251:ℝ) - 20.9725054) * Real.pi / 180.0 / 2 := by
    nlinarith
  have hy : ((105.75759:ℝ) - 105.7575887) * Real.pi / 180.0 / 2 ≤ 1.14e-8 := by
    nlinarith
  have hy0 : (0:ℝ) ≤ ((105.75759:ℝ) - 105.7575887) * Real.pi / 180.0 / 2 := by
    nlinarith
  have hsx := sin_mul_self_le_mul_self
    (((20.97251:ℝ) - 20.9725054) * Real.pi / 180.0 / 2)
  have hsy := sin_mul_self_le_mul_self
    (((105.75759:ℝ) - 105.7575887) * Real.pi / 180.0 / 2)
  have hp1 : (0:ℝ) ≤ Real.cos ((20.9725054:ℝ) * Real.pi / 180.0) := by
    have hb1 : (20.9725054:ℝ) * Real.pi / 180.0 ≤ 0.36605 := by nlinarith
    have hb0 : (0:ℝ) ≤ (20.9725054:ℝ) * Real.pi / 180.0 := by nlinarith
    have hc := Real.one_sub_sq_div_two_le_cos (x := (20.9725054:ℝ) * Real.pi / 180.0)
    nlinarith
  have hp2 : (0:ℝ) ≤ Real.cos ((20.97251:ℝ) * Real.pi / 180.0) := by
    have hb1 : (20.97251:ℝ) * Real.pi / 180.0 ≤ 0.36605 := by nlinarith
    have hb0 : (0:ℝ) ≤ (20.97251:ℝ) * Real.pi / 180.0 := by nlinarith
    have hc := Real.one_sub_sq_div_two_le_cos (x := (20.97251:ℝ) * Real.pi / 180.0)
    nlinarith
  have hterm_eq : Real.cos ((20.9725054:ℝ) * Real.pi / 180.0) *
        Real.cos ((20.97251:ℝ) * Real.pi / 180.0) *
        Real.sin (((105.75759:ℝ) - 105.7575887) * Real.pi / 180.0 / 2) *
        Real.sin (((105.75759:ℝ) - 105.7575887) * Real.pi / 180.0 / 2) =
      (Real.cos ((20.9725054:ℝ) * Real.pi / 180.0) *
        Real.cos ((20.97251:ℝ) * Real.pi / 180.0)) *
      (Real.sin (((105.75759:ℝ) - 105.7575887) * Real.pi / 180.0 / 2) *
        Real.sin (((105.75759:ℝ) - 105.7575887) * Real.pi / 180.0 / 2)) := by
    ring
  have hccle : Real.cos ((20.9725054:ℝ) * Real.pi / 180.0) *
      Real.cos ((20.97251:ℝ) * Real.pi / 180.0) ≤ 1 :=
    mul_le_one₀ (Real.cos_le_one _) hp2 (Real.cos_le_one _)
  have hcc0 : (0:ℝ) ≤ Real.cos ((20.9725054:ℝ) * Real.pi / 180.0) *
      Real.cos ((20.97251:ℝ) * Real.pi / 180.0) := mul_nonneg hp1 hp2
  have ha0 : 0 ≤ havA 20.9725054 105.7575887 20.97251 105.75759 := by
    unfold havA toRadians
    rw [hterm_eq]
    have h1 := mul_self_nonneg
      (Real.sin (((20.97251:ℝ) - 20.9725054) * Real.pi / 180.0 / 2))
    have h2 := mul_self_nonneg
      (Real.sin (((105.75759:ℝ) - 105.7575887) * Real.pi / 180.0 / 2))
    linarith [h1, mul_nonneg hcc0 h2]
  have hx2 : (((20.97251:ℝ) - 20.9725054) * Real.pi / 180.0 / 2) *
      (((20.97251:ℝ) - 20.9725054) * Real.pi / 180.0 / 2) ≤ 1.62e-15 := by
    nlinarith [hx, hx0]
  have hy2 : (((105.75759:ℝ) - 105.7575887) * Real.pi / 180.0 / 2) *
      (((105.75759:ℝ) - 105.7575887) * Real.pi / 180.0 / 2) ≤ 1.3e-16 := by
    nlinarith [hy, hy0]
  have hterm : Real.cos ((20.9725054:ℝ) * Real.pi / 180.0) *
        Real.cos ((20.97251:ℝ) * Real.pi / 180.0) *
        Real.sin (((105.75759:ℝ) - 105.7575887) * Real.pi / 180.0 / 2) *
        Real.sin (((105.75759:ℝ) - 105.7575887) * Real.pi / 180.0 / 2) ≤
      Real.sin (((105.75759:ℝ) - 105.7575887) * Real.pi / 180.0 / 2) *
        Real.sin (((105.75759:ℝ) - 105.7575887) * Real.pi / 180.0 / 2) := by
    rw [hterm_eq]
    exact mul_le_of_le_one_left (mul_self_nonneg _) hccle
  have haup : havA 20.9725054 105.7575887 20.97251 105.75759 ≤ 2e-15 := by
    unfold havA toRadians
    linarith [hsx, hsy, hterm, hx2, hy2]
  have hahalf : havA 20.9725054 105.7575887 20.97251 105.75759 ≤ 1 / 2 := by
    linarith
  have hang := hav_angle_le ha0 hahalf
  have hsq : Real.sqrt (2 * havA 20.9725054 105.7575887 20.97251 105.75759) ≤
      6.33e-8 := by
    have h1 : (2:ℝ) * havA 20.9725054 105.7575887 20.97251 105.75759 ≤
        (6.33e-8 : ℝ) ^ 2 := by norm_num; linarith
    calc Real.sqrt (2 * havA 20.9725054 105.7575887 20.97251 105.75759) ≤
          Real.sqrt ((6.33e-8 : ℝ) ^ 2) := Real.sqrt_le_sqrt h1
      _ = 6.33e-8 := Real.sqrt_sq (by norm_num)
  linarith [hang, hsq]

set_option maxHeartbeats 1000000 in
/-- The rejected reply of the spec scenario lies farther than 100 m from
the HN1 office. -/
theorem reject_distance_gt :
    100 < calculateDistance 20.9725054 105.7575887 20.973 105.759 := by
  have hπu : Real.pi < 3.1416 := Real.pi_lt_d4
  have hπl : (3.1415:ℝ) < Real.pi := Real.pi_gt_d4
  rw [calculateDistance_eq]
  have hx0 : (0:ℝ) ≤ ((20.973:ℝ) - 20.9725054) * Real.pi / 180.0 / 2 := by
    nlinarith
  have hxu : ((20.973:ℝ) - 20.9725054) * Real.pi / 180.0 / 2 ≤ 4.4e-6 := by
    nlinarith
  have hy0 : (0:ℝ) < ((105.759:ℝ) - 105.7575887) * Real.pi / 180.0 / 2 := by
    nlinarith
  have hyl : (1.2315e-5:ℝ) ≤ ((105.759:ℝ) - 105.7575887) * Real.pi / 180.0 / 2 := by
    nlinarith
  have hyu : ((105.759:ℝ) - 105.7575887) * Real.pi / 180.0 / 2 ≤ 1.2316e-5 := by
    nlinarith
  have hy2ub : (((105.759:ℝ) - 105.7575887) * Real.pi / 180.0 / 2) *
      (((105.759:ℝ) - 105.7575887) * Real.pi / 180.0 / 2) ≤ 1.52e-10 := by
    nlinarith [hyu, hy0]
  have hx2ub : (((20.973:ℝ) - 20.9725054) * Real.pi / 180.0 / 2) *
      (((20.973:ℝ) - 20.9725054) * Real.pi / 180.0 / 2) ≤ 2e-11 := by
    nlinarith [hxu, hx0]
  have hsingt := Real.sin_gt_sub_cube hy0 (by linarith)
  have hy3 : (((105.759:ℝ) - 105.7575887) * Real.pi / 180.0 / 2) ^ 3 ≤ 1.88e-15 := by
    have : (((105.759:ℝ) - 105.7575887) * Real.pi / 180.0 / 2) ^ 3 =
        (((105.759:ℝ) - 105.7575887) * Real.pi / 180.0 / 2) *
          ((((105.759:ℝ) - 105.7575887) * Real.pi / 180.0 / 2) *
            (((105.759:ℝ) - 105.7575887) * Real.pi / 180.0 / 2)) := by ring
    rw [this]
    nlinarith [hy2ub, hyu, hy0]
  have hsinlb : (1.2314e-5:ℝ) ≤
      Real.sin (((105.759:ℝ) - 105.7575887) * Real.pi / 180.0 / 2) := by
    nlinarith [hsingt, hy3, hyl]
  have hsy2 : (1.516e-10:ℝ) ≤
      Real.sin (((105.759:ℝ) - 105.7575887) * Real.pi / 180.0 / 2) *
        Real.sin (((105.759:ℝ) - 105.7575887) * Real.pi / 180.0 / 2) := by
    nlinarith [hsinlb, mul_self_nonneg
      (Real.sin (((105.759:ℝ) - 105.7575887) * Real.pi / 180.0 / 2) - 1.2314e-5)]
  have hp1c : (0.933:ℝ) ≤ Real.cos ((20.9725054:ℝ) * Real.pi / 180.0) := by
    have hb0 : (0:ℝ) ≤ (20.9725054:ℝ) * Real.pi / 180.0 := by nlinarith
    have hb1 : (20.9725054:ℝ) * Real.pi / 180.0 ≤ 0.36605 := by nlinarith
    have hsq : ((20.9725054:ℝ) * Real.pi / 180.0) ^ 2 ≤ 0.134 := by
      nlinarith [hb0, hb1]
    have hc := Real.one_sub_sq_div_two_le_cos (x := (20.9725054:ℝ) * Real.pi / 180.0)
    linarith
  have hp2c : (0.933:ℝ) ≤ Real.cos ((20.973:ℝ) * Real.pi / 180.0) := by
    have hb0 : (0:ℝ) ≤ (20.973:ℝ) * Real.pi / 180.0 := by nlinarith
    have hb1 : (20.973:ℝ) * Real.pi / 180.0 ≤ 0.36605 := by nlinarith
    have hsq : ((20.973:ℝ) * Real.pi / 180.0) ^ 2 ≤ 0.134 := by
      nlinarith [hb0, hb1]
    have hc := Real.one_sub_sq_div_two_le_cos (x := (20.973:ℝ) * Real.pi / 180.0)
    linarith
  have hpp : (0.87:ℝ) ≤ Real.cos ((20.9725054:ℝ) * Real.pi / 180.0) *
      Real.cos ((20.973:ℝ) * Real.pi / 180.0) := by
    have := mul_le_mul hp1c hp2c (by norm_num)
      (le_trans (by norm_num : (0:ℝ) ≤ 0.933) hp1c)
    linarith
  have hccle : Real.cos ((20.9725054:ℝ) * Real.pi / 180.0) *
      Real.cos ((20.973:ℝ) * Real.pi / 180.0) ≤ 1 :=
    mul_le_one₀ (Real.cos_le_one _)
      (le_trans (by norm_num : (0:ℝ) ≤ 0.933) hp2c) (Real.cos_le_one _)
  have hterm_eq : Real.cos ((20.9725054:ℝ) * Real.pi / 180.0) *
        Real.cos ((20.973:ℝ) * Real.pi / 180.0) *
        Real.sin (((105.759:ℝ) - 105.7575887) * Real.pi / 180.0 / 2) *
        Real.sin (((105.759:ℝ) - 105.7575887) * Real.pi / 180.0 / 2) =
      (Real.cos ((20.9725054:ℝ) * Real.pi / 180.0) *
        Real.cos ((20.973:ℝ) * Real.pi / 180.0)) *
      (Real.sin (((105.759:ℝ) - 105.7575887) * Real.pi / 180.0 / 2) *
        Real.sin (((105.759:ℝ) - 105.7575887) * Real.pi / 180.0 / 2)) := by
    ring
  have halb : (1.31e-10:ℝ) ≤ havA 20.9725054 105.7575887 20.973 105.759 := by
    unfold havA toRadians
    rw [hterm_eq]
    have hprod : (0.87:ℝ) * 1.516e-10 ≤
        (Real.cos ((20.9725054:ℝ) * Real.pi / 180.0) *
          Real.cos ((20.973:ℝ) * Real.pi / 180.0)) *
        (Real.sin (((105.759:ℝ) - 105.7575887) * Real.pi / 180.0 / 2) *
          Real.sin (((105.759:ℝ) - 105.7575887) * Real.pi / 180.0 / 2)) :=
      mul_le_mul hpp hsy2 (by norm_num) (le_trans (by norm_num) hpp)
    have hs1 := mul_self_nonneg
      (Real.sin (((20.973:ℝ) - 20.9725054) * Real.pi / 180.0 / 2))
    linarith
  have ha0 : (0:ℝ) ≤ havA 20.9725054 105.7575887 20.973 105.759 := by linarith
  have ha1 : havA 20.9725054 105.7575887 20.973 105.759 < 1 := by
    unfold havA toRadians
    have hsx := sin_mul_self_le_mul_self
      (((20.973:ℝ) - 20.9725054) * Real.pi / 180.0 / 2)
    have hsy := sin_mul_self_le_mul_self
      (((105.759:ℝ) - 105.7575887) * Real.pi / 180.0 / 2)
    have hterm : Real.cos ((20.9725054:ℝ) * Real.pi / 180.0) *
          Real.cos ((20.973:ℝ) * Real.pi / 180.0) *
          Real.sin (((105.759:ℝ) - 105.7575887) * Real.pi / 180.0 / 2) *
          Real.sin (((105.759:ℝ) - 105.7575887) * Real.pi / 180.0 / 2) ≤
        Real.sin (((105.759:ℝ) - 105.7575887) * Real.pi / 180.0 / 2) *
          Real.sin (((105.759:ℝ) - 105.7575887) * Real.pi / 180.0 / 2) := by
      rw [hterm_eq]
      exact mul_le_of_le_one_left (mul_self_nonneg _) hccle
    linarith [hsx, hsy, hterm, hx2ub, hy2ub]
  have hang := hav_angle_ge ha0 ha1
  have hsqrt : (1.1445e-5:ℝ) ≤
      Real.sqrt (havA 20.9725054 105.7575887 20.973 105.759) := by
    rw [Real.le_sqrt (by norm_num) ha0]
    norm_num
    linarith
  linarith [hang, hsqrt]

/-- The default HN1 office of `createDefaultOfficesFile`
(location.go:78). -/
noncomputable def hn1Office : Office :=
  { id := "HN1",
    name := "Văn phòng Hà Nội 1 - 2nd Floor, CT3 The Pride, To Huu Street, Ha Dong, Ha Noi",
    latitude := 20.9725054,
    longitude := 105.7575887,
    radiusMeters := 100,
    enabled := true }

/-- `validateLocation` with validation enabled, for a nonempty office
list, accepts exactly the in-range non-zero replies within the selected
nearest office's radius. -/
theorem validateLocation_iff (offices : List Office) (lat lon : ℝ)
    (hne : offices ≠ []) :
    validateLocation { enabled := true, offices := offices } lat lon = true ↔
      (-90 ≤ lat ∧ lat ≤ 90 ∧ -180 ≤ lon ∧ lon ≤ 180 ∧ ¬(lat = 0 ∧ lon = 0) ∧
        ∃ m, findNearestOffice offices lat lon = some m ∧
          m.distance ≤ m.office.radiusMeters) := by
  obtain ⟨m, hm, hmem, hd, hiv, hmin⟩ := findNearestOffice_nearest offices lat lon hne
  unfold validateLocation
  constructor
  · intro h
    by_cases hz : lat = 0 ∧ lon = 0
    · rw [if_neg (by simp), if_pos hz] at h
      cases h
    · by_cases hrange : lat < -90 ∨ lat > 90 ∨ lon < -180 ∨ lon > 180
      · rw [if_neg (by simp), if_neg hz, if_pos hrange] at h
        cases h
      · have hrange2 := hrange
        push_neg at hrange2
        obtain ⟨hr1, hr2, hr3, hr4⟩ := hrange2
        rw [if_neg (by simp), if_neg hz, if_neg hrange, hm] at h
        change m.isValid = true at h
        exact ⟨hr1, hr2, hr3, hr4, hz, m, hm, hiv.mp h⟩
  · rintro ⟨hr1, hr2, hr3, hr4, hz, m2, hm2, hrad⟩
    have hmm : m2 = m := by
      rw [hm] at hm2
      injection hm2 with h2
      exact h2.symm
    rw [if_neg (by simp), if_neg hz, if_neg (by push_neg; exact ⟨hr1, hr2, hr3, hr4⟩),
      hm]
    change m.isValid = true
    exact hiv.mpr (hmm ▸ hrad)

theorem validate_accept_hn1 :
    validateLocation { enabled := true, offices := [hn1Office] }
      20.97251 105.75759 = true := by
  unfold validateLocation
  rw [if_neg (by simp),
    if_neg (by norm_num : ¬((20.97251:ℝ) = 0 ∧ (105.75759:ℝ) = 0)),
    if_neg (by norm_num :
      ¬((20.97251:ℝ) < -90 ∨ (20.97251:ℝ) > 90 ∨
        (105.75759:ℝ) < -180 ∨ (105.75759:ℝ) > 180))]
  have hnear : findNearestOffice [hn1Office] 20.97251 105.75759 =
      nearestStep 20.97251 105.75759 none hn1Office := rfl
  rw [hnear]
  show (if calculateDistance hn1Office.latitude hn1Office.longitude
      20.97251 105.75759 ≤ hn1Office.radiusMeters then true else false) = true
  rw [if_pos (show calculateDistance hn1Office.latitude hn1Office.longitude
      20.97251 105.75759 ≤ hn1Office.radiusMeters from accept_distance_le)]

theorem validate_reject_hn1 :
    validateLocation { enabled := true, offices := [hn1Office] }
      20.973 105.759 = false := by
  unfold validateLocation
  rw [if_neg (by simp),
    if_neg (by norm_num : ¬((20.973:ℝ) = 0 ∧ (105.759:ℝ) = 0)),
    if_neg (by norm_num :
      ¬((20.973:ℝ) < -90 ∨ (20.973:ℝ) > 90 ∨
        (105.759:ℝ) < -180 ∨ (105.759:ℝ) > 180))]
  have hnear : findNearestOffice [hn1Office] 20.973 105.759 =
      nearestStep 20.973 105.759 none hn1Office := rfl
  rw [hnear]
  show (if calculateDistance hn1Office.latitude hn1Office.longitude
      20.973 105.759 ≤ hn1Office.radiusMeters then true else false) = false
  rw [if_neg (show ¬(calculateDistance hn1Office.latitude hn1Office.longitude
      20.973 105.759 ≤ hn1Office.radiusMeters) from not_le.mpr reject_distance_gt)]

theorem validate_zero_rejected (offices : List Office) :
    validateLocation { enabled := true, offices := offices } 0 0 = false := by
  unfold validateLocation
  rw [if_neg (by simp), if_pos (by norm_num : (0:ℝ) = 0 ∧ (0:ℝ) = 0)]

/-- Counterexample to C5 as stated: "(0, 0) is rejected regardless of
config" fails on the disabled configuration — with location validation
disabled the validator accepts (0, 0) (and everything else). -/
theorem c5_counterexample_disabled_zero_accepted :
    validateLocation { enabled := false, offices := [hn1Office] } 0 0 = true := by
  simp [validateLocation]

/-- C5 (amended): with location validation enabled and a nonempty
enabled-office list, a reply is accepted iff lat ∈ [-90, 90],
lon ∈ [-180, 180], (lat, lon) ≠ (0, 0), and the haversine distance
(Earth radius 6 371 000 m) to the office selected by
`findNearestOffice` — an office of minimal distance among the enabled
ones — is at most that office's radiusMeters.  In particular, when
validation is enabled, (0, 0) is rejected for every office list, the
HN1 reply (20.97251, 105.75759) is accepted and (20.973, 105.759) is
rejected.  (With validation disabled every reply is accepted.) -/
theorem c5_location_validator :
    (∀ (offices : List Office) (lat lon : ℝ), offices ≠ [] →
      (validateLocation { enabled := true, offices := offices } lat lon = true ↔
        (-90 ≤ lat ∧ lat ≤ 90 ∧ -180 ≤ lon ∧ lon ≤ 180 ∧ ¬(lat = 0 ∧ lon = 0) ∧
          ∃ m, findNearestOffice offices lat lon = some m ∧
            m.distance ≤ m.office.radiusMeters))) ∧
    (∀ (offices : List Office) (lat lon : ℝ), offices ≠ [] →
      ∃ m, findNearestOffice offices lat lon = some m ∧
        m.office ∈ offices ∧
        m.distance = officeDistance m.office lat lon ∧
        ∀ o ∈ offices, m.distance ≤ officeDistance o lat lon) ∧
    validateLocation { enabled := true, offices := [hn1Office] }
      20.97251 105.75759 = true ∧
    validateLocation { enabled := true, offices := [hn1Office] }
      20.973 105.759 = false ∧
    (∀ offices : List Office,
      validateLocation { enabled := true, offices := offices } 0 0 = false) := by
  refine ⟨validateLocation_iff, ?_, validate_accept_hn1, validate_reject_hn1,
    validate_zero_rejected⟩
  intro offices lat lon hne
  obtain ⟨m, hm, hmem, hd, _, hmin⟩ := findNearestOffice_nearest offices lat lon hne
  exact ⟨m, hm, hmem, hd, hmin⟩

/-- Witness for C5 at the concrete HN1 configuration. -/
theorem c5_location_validator_witness :
    ([hn1Office] ≠ ([] : List Office)) ∧
    (validateLocation { enabled := true, offices := [hn1Office] }
        20.97251 105.75759 = true ↔
      (-90 ≤ (20.97251:ℝ) ∧ (20.97251:ℝ) ≤ 90 ∧ -180 ≤ (105.75759:ℝ) ∧
        (105.75759:ℝ) ≤ 180 ∧ ¬((20.97251:ℝ) = 0 ∧ (105.75759:ℝ) = 0) ∧
        ∃ m, findNearestOffice [hn1Office] 20.97251 105.75759 = some m ∧
          m.distance ≤ m.office.radiusMeters)) := by
  refine ⟨by simp, ?_⟩
  exact c5_location_validator.1 [hn1Office] 20.97251 105.75759 (by simp)

end MezonCheckin
